import Mathlib

/-!
Verification of the GraphQL schema-compiler core of the repository.

The development shallow-embeds the three source files:

* `Types.js` service (src/unnamed/part_000): `convertType`, `convertEnumType`,
  `addPolymorphicUnionType`, `addInput`, `generateInputModel`,
  `generateInputPayloadArguments`;
* the graphql hook (src/hooks/graphql/index.js): `attachMetadataToResolvers`,
  `mergeSchemas`.

External collaborators (the component/model registry `siapi.components` /
`siapi.db.getModel`, the naming library `toSingular` / `toInputName`, lodash's
`camelCase`, and the per-field visibility configuration lookup) are passed as
an explicit environment `Env`, mirroring the ambient lookups of the source.
JavaScript strings-or-undefined are `Option String`; JS truthiness of such a
value is the predicate `truthy` (both `undefined` and `""` are falsy).
`Attribute.hasDefault` models `attribute.default !== undefined`.
-/

/-- JS truthiness for a string-or-undefined value: `undefined` and `""` are falsy. -/
def truthy : Option String → Bool
  | some s => s != ""
  | none => false

/-- Lodash `_.upperFirst`: upper-case the first character, keep the rest. -/
def upperFirst (s : String) : String :=
  match s.data with
  | [] => ""
  | c :: cs => String.mk (c.toUpper :: cs)

/-- The ambient collaborators consulted by the Types.js service:
`components` is `uid ↦ siapi.components[uid].globalId`;
`getModelGlobalId` is `(ref, plugin) ↦ siapi.db.getModel(ref, plugin).globalId`;
`toSingular` / `toInputName` come from the naming library;
`camelCase` is lodash `_.camelCase`;
`typeAttributeEnabled` is the per-field visibility lookup
`_.get(config, 'type.<globalId>.<attr>') !== false`. -/
structure Env where
  components : String → String
  getModelGlobalId : String → Option String → String
  toSingular : String → String
  toInputName : String → String
  camelCase : String → String
  typeAttributeEnabled : String → String → Bool

/-- A concrete environment used to instantiate witnesses: the registry is the
identity on identifiers, every field is enabled. -/
def defaultEnv : Env where
  components := fun s => s
  getModelGlobalId := fun s _ => s
  toSingular := fun s => s
  toInputName := fun s => s ++ "Input"
  camelCase := fun s => s
  typeAttributeEnabled := fun _ _ => true

/-- A Siapi attribute, keeping exactly the fields `convertType` reads.
`hasDefault` models `attribute.default !== undefined`. -/
structure Attribute where
  type : Option String := none
  required : Bool := false
  hasDefault : Bool := false
  repeatable : Bool := false
  component : String := ""
  enumName : Option String := none
  model : Option String := none
  collection : Option String := none
  plugin : Option String := none

/-- A Siapi model: `globalId`, `kind`, and the ordered attribute map
(`Object.keys` order is insertion order). -/
structure Model where
  globalId : String
  kind : String := ""
  attributes : List (String × Attribute) := []

/-- `isScalarAttribute = ({ type }) => type && !['component', 'dynamiczone'].includes(type)`. -/
def isScalarAttribute (a : Attribute) : Bool :=
  match a.type with
  | some t => t != "" && t != "component" && t != "dynamiczone"
  | none => false

/-- `isTypeAttributeEnabled(model, attr)`: the visibility-config lookup, keyed by
the model's `globalId` and the attribute name. -/
def isTypeAttributeEnabled (env : Env) (model : Model) (attr : String) : Bool :=
  env.typeAttributeEnabled model.globalId attr

/-- `convertEnumType(definition, model, field)`: an explicit truthy `enumName`
wins, otherwise `ENUM_<MODEL>_<FIELD>` upper-cased. -/
def convertEnumType (definition : Attribute) (model field : String) : String :=
  if truthy definition.enumName then
    definition.enumName.getD ""
  else
    "ENUM_" ++ model.toUpper ++ "_" ++ field.toUpper

/-- The `switch (attribute.type)` of the scalar branch of `convertType`:
`let type = 'String'` overridden by the recognized cases. -/
def scalarTypeName (attr : Attribute) (modelName attributeName : String) : String :=
  match attr.type with
  | none => "String"
  | some t =>
    if t == "boolean" then "Boolean"
    else if t == "integer" then "Int"
    else if t == "biginteger" then "Long"
    else if t == "float" || t == "decimal" then "Float"
    else if t == "json" then "JSON"
    else if t == "date" then "Date"
    else if t == "time" then "Time"
    else if t == "datetime" || t == "timestamp" then "DateTime"
    else if t == "enumeration" then convertEnumType attr modelName attributeName
    else "String"

/-- `convertType({attribute, modelName, attributeName, rootType, action})` of the
Types.js service, branch for branch. -/
def convertType (env : Env) (attr : Attribute)
    (modelName attributeName rootType action : String) : String :=
  if isScalarAttribute attr then
    let type := scalarTypeName attr modelName attributeName
    if attr.required &&
        (rootType != "mutation" || (action != "update" && !attr.hasDefault)) then
      type ++ "!"
    else
      type
  else if attr.type == some "component" then
    let globalId := env.components attr.component
    let typeName :=
      if rootType == "mutation" then
        if action == "update" then
          "edit" ++ upperFirst (env.toSingular globalId) ++ "Input"
        else
          upperFirst (env.toSingular globalId) ++ "Input" ++
            (if attr.required then "!" else "")
      else
        globalId
    if attr.repeatable then "[" ++ typeName ++ "]" else typeName
  else if attr.type == some "dynamiczone" then
    let unionName := modelName ++ upperFirst (env.camelCase attributeName) ++ "DynamicZone"
    let typeName := if rootType == "mutation" then unionName ++ "Input!" else unionName
    "[" ++ typeName ++ "]" ++ (if attr.required then "!" else "")
  else
    let ref := if truthy attr.model then attr.model else attr.collection
    if truthy ref && ref != some "*" then
      let globalId := env.getModelGlobalId (ref.getD "") attr.plugin
      let plural := truthy attr.collection
      if plural then
        if rootType == "mutation" then "[ID]" else "[" ++ globalId ++ "]"
      else
        if rootType == "mutation" then "ID" else globalId
    else if rootType == "mutation" then
      if truthy attr.model then "ID" else "[ID]"
    else
      if truthy attr.model then "Morph" else "[Morph]"

/-- The field lines of an input block of `generateInputModel`: attribute names
filtered by the visibility predicate, each rendered as
`<name>: <convertType(..., rootType: 'mutation', action)>` (the create block
passes no action, the edit block passes `'update'`). -/
def inputFieldLines (env : Env) (model : Model) (action : String) : List String :=
  (model.attributes.filter fun p => isTypeAttributeEnabled env model p.1).map
    fun p => p.1 ++ ": " ++ convertType env p.2 model.globalId p.1 "mutation" action

/-- `generateInputModel(model, name, { allowIds })`, template literal for
template literal (`\x7b` and `\x7d` denote the literal braces of the emitted
SDL text). -/
def generateInputModel (env : Env) (model : Model) (name : String)
    (allowIds : Bool) : String :=
  let inputName := upperFirst (env.toSingular name) ++ "Input"
  let hasAllAttributesDisabled :=
    model.attributes.all fun p => !isTypeAttributeEnabled env model p.1
  if model.attributes.isEmpty || hasAllAttributesDisabled then
    "\n      input " ++ inputName ++ " \x7b\n        _: String\n      \x7d\n\n      input edit"
      ++ inputName ++ " \x7b\n        "
      ++ (if allowIds then "id: ID" else "_: String")
      ++ "\n      \x7d\n     "
  else
    "\n      input " ++ inputName ++ " \x7b\n\n        "
      ++ String.intercalate "\n" (inputFieldLines env model "")
      ++ "\n      \x7d\n\n      input edit" ++ inputName ++ " \x7b\n        "
      ++ (if allowIds then "id: ID" else "")
      ++ "\n        " ++ String.intercalate "\n" (inputFieldLines env model "update")
      ++ "\n      \x7d\n    "

/-- `addInput()`: the fixed, globally shared `InputID` input shape. -/
def addInput : String :=
  "\n      input InputID \x7b id: ID!\x7d\n    "

/-- `generateInputPayloadArguments({ model, name, mutationName, action })`:
the `switch (action)` returning SDL text, or nothing for an unknown action
(the JS function falls off the end and returns `undefined`). -/
def generateInputPayloadArguments (env : Env) (model : Model)
    (name mutationName action : String) : Option String :=
  let singularName := env.toSingular name
  let inputName := env.toInputName name
  let kind := model.kind
  if action == "create" then
    some ("\n          input " ++ mutationName ++ "Input \x7b data: " ++ inputName
      ++ " \x7d\n          type " ++ mutationName ++ "Payload \x7b " ++ singularName
      ++ ": " ++ model.globalId ++ " \x7d\n        ")
  else if action == "update" then
    if kind == "singleType" then
      some ("\n          input " ++ mutationName ++ "Input  \x7b data: edit" ++ inputName
        ++ " \x7d\n          type " ++ mutationName ++ "Payload \x7b " ++ singularName
        ++ ": " ++ model.globalId ++ " \x7d\n        ")
    else
      some ("\n          input " ++ mutationName ++ "Input  \x7b where: InputID, data: edit"
        ++ inputName ++ " \x7d\n          type " ++ mutationName ++ "Payload \x7b "
        ++ singularName ++ ": " ++ model.globalId ++ " \x7d\n        ")
  else if action == "delete" then
    if kind == "singleType" then
      some ("\n          type " ++ mutationName ++ "Payload \x7b " ++ singularName
        ++ ": " ++ model.globalId ++ " \x7d\n        ")
    else
      some ("\n          input " ++ mutationName ++ "Input  \x7b where: InputID \x7d\n          type "
        ++ mutationName ++ "Payload \x7b " ++ singularName ++ ": " ++ model.globalId
        ++ " \x7d\n        ")
  else
    none

/-- The payload type text common to every action of
`generateInputPayloadArguments`:
`type <mutationName>Payload \x7b <singularName>: <globalId> \x7d`. -/
def payloadSDL (env : Env) (model : Model) (name mutationName : String) : String :=
  "type " ++ mutationName ++ "Payload \x7b " ++ env.toSingular name ++ ": "
    ++ model.globalId ++ " \x7d"

/-- A one-attribute sample model used by witnesses. -/
def postModel : Model :=
  { globalId := "Post", attributes := [("title", { type := some "string" })] }

/-- A JavaScript value as the merge and metadata code observes it: `undefined`,
an opaque function (tagged by an id), a string, or a plain object as an ordered
key/value list. -/
inductive JsVal where
  | undefined : JsVal
  | fn : Nat → JsVal
  | str : String → JsVal
  | obj : List (String × JsVal) → JsVal

/-- Property read `o[k]` on an object's field list: first matching key, else
`undefined`. -/
def getField : List (String × JsVal) → String → JsVal
  | [], _ => .undefined
  | (k', v) :: rest, k => if k' == k then v else getField rest k

/-- Property read `o[k]` on a value: `undefined` unless the value is an object. -/
def JsVal.get : JsVal → String → JsVal
  | .obj fields, k => getField fields k
  | _, _ => .undefined

/-- Property assignment `o[k] = v`: overwrite the existing entry in place, else
append the new entry. -/
def setField (fields : List (String × JsVal)) (k : String) (v : JsVal) :
    List (String × JsVal) :=
  if fields.any fun p => p.1 == k then
    fields.map fun p => if p.1 == k then (k, v) else p
  else
    fields ++ [(k, v)]

mutual

/-- Lodash `_.merge(dest, source)` (non-mutating model): an `undefined` source
keeps the destination, two plain objects merge key by key, and any other source
value overwrites the destination. -/
def lodashMerge : JsVal → JsVal → JsVal
  | d, .undefined => d
  | .obj ds, .obj ss => .obj (lodashMergeFields ds ss)
  | _, s => s
termination_by _ s => (sizeOf s, 0)

/-- Fold the source object's entries into the destination field list, in source
key order. -/
def lodashMergeFields (ds : List (String × JsVal)) :
    List (String × JsVal) → List (String × JsVal)
  | [] => ds
  | (k, sv) :: rest => lodashMergeFields (lodashAssign ds k sv) rest
termination_by ss => (sizeOf ss, 0)

/-- Merge one source entry into the destination field list: an existing key's
value is merged recursively, a fresh key is appended with the source value. -/
def lodashAssign : List (String × JsVal) → String → JsVal → List (String × JsVal)
  | [], k, sv => [(k, sv)]
  | (k', dv) :: rest, k, sv =>
    if k' == k then (k, lodashMerge dv sv) :: rest
    else (k', dv) :: lodashAssign rest k sv
termination_by ds _ sv => (sizeOf sv, 1 + sizeOf ds)

end

/-- `acc.definition || ''`: a missing text field concatenates as the empty
string. -/
def orEmpty : Option String → String
  | some s => s
  | none => ""

/-- A schema fragment `{definition, query, mutation, type, resolver}` as
contributed by one source. -/
structure SchemaFragment where
  definition : Option String := none
  query : Option String := none
  mutation : Option String := none
  type : JsVal := .undefined
  resolver : JsVal := .undefined

/-- The reducer body of `mergeSchemas`: text fields are concatenated with a
single separating space, `type` and `resolver` are lodash-deep-merged into the
accumulator. -/
def mergeStep (acc el : SchemaFragment) : SchemaFragment :=
  { definition := some (orEmpty acc.definition ++ " " ++ orEmpty el.definition)
    query := some (orEmpty acc.query ++ " " ++ orEmpty el.query)
    mutation := some (orEmpty acc.mutation ++ " " ++ orEmpty el.mutation)
    type := lodashMerge acc.type el.type
    resolver := lodashMerge acc.resolver el.resolver }

/-- `mergeSchemas(schemas)`: `schemas.reduce(..., {})`. -/
def mergeSchemas (schemas : List SchemaFragment) : SchemaFragment :=
  schemas.foldl mergeStep {}

/-- Join a list of strings with one separating space between neighbours. -/
def spaceJoin : List String → String
  | [] => ""
  | [s] => s
  | s :: t :: rest => s ++ " " ++ spaceJoin (t :: rest)

/-- A schema fragment defining only the resolver entry `Query.x`, holding the
function tagged `n`. -/
def queryXFragment (n : Nat) : SchemaFragment :=
  { resolver := .obj [("Query", .obj [("x", .fn n)])] }

/-- A top-level definition node as returned by the external `graphql.parse`
library call: its `kind` tag and its name (`def.name.value`). -/
structure DefinitionNode where
  kind : String
  name : String

/-- The value handed to the Morph union's `__resolveType` rule: its optional
`kind` and `__contentType` discriminator fields (`contentType` here models the
JS property `__contentType`). -/
structure MorphObj where
  kind : Option String := none
  contentType : Option String := none

/-- The `__resolveType(obj)` rule: `obj.kind || obj.__contentType || null`. -/
def morphResolveType (o : MorphObj) : Option String :=
  if truthy o.kind then o.kind
  else if truthy o.contentType then o.contentType
  else none

/-- Result of `addPolymorphicUnionType`: the union's SDL `definition` text and
the `Morph.__resolveType` rule (`none` models the empty resolvers object). -/
structure MorphUnion where
  definition : String
  resolvers : Option (MorphObj → Option String)

/-- The `types` list of `addPolymorphicUnionType`: names of the parsed
document's `ObjectTypeDefinition` nodes, excluding the root `Query` type. -/
def unionTypeNames (doc : List DefinitionNode) : List String :=
  (doc.filter fun d => d.kind == "ObjectTypeDefinition" && d.name != "Query").map
    fun d => d.name

/-- `addPolymorphicUnionType(definition)`, with the external `graphql.parse`
call abstracted as the `parse` collaborator returning the document's top-level
definition nodes. -/
def addPolymorphicUnionType (parse : String → List DefinitionNode)
    (definition : String) : MorphUnion :=
  let types := unionTypeNames (parse definition)
  if types.length > 0 then
    { definition := "union Morph = " ++ String.intercalate " | " types
      resolvers := some morphResolveType }
  else
    { definition := "", resolvers := none }

/-- A parse oracle matching what `graphql.parse` returns on SDL text that
defines the same object type twice, e.g.
`type A \x7b x: Int \x7d type A \x7b y: Int \x7d`: parsing is purely syntactic,
so the document holds two `ObjectTypeDefinition` nodes both named `A`. -/
def dupParse : String → List DefinitionNode :=
  fun _ => [{ kind := "ObjectTypeDefinition", name := "A" },
    { kind := "ObjectTypeDefinition", name := "A" }]

/-- A parse oracle for a document with one candidate object type beside the
root `Query` type. -/
def singleParse : String → List DefinitionNode :=
  fun _ => [{ kind := "ObjectTypeDefinition", name := "A" },
    { kind := "ObjectTypeDefinition", name := "Query" }]

/-- A parse oracle for a document with no object-type definitions at all. -/
def emptyParse : String → List DefinitionNode :=
  fun _ => [{ kind := "InputObjectTypeDefinition", name := "B" }]

/-- The source identity `{ api, plugin }` destructured by
`attachMetadataToResolvers`. -/
structure Metadatas where
  api : Option String := none
  plugin : Option String := none

/-- Embed a string-or-undefined property value. -/
def optStrVal : Option String → JsVal
  | some s => .str s
  | none => .undefined

/-- The `_metadatas` value assigned to each annotated entry: `{ api, plugin }`. -/
def metaVal (m : Metadatas) : JsVal :=
  .obj [("api", optStrVal m.api), ("plugin", optStrVal m.plugin)]

/-- The inner loop body of `attachMetadataToResolvers`: a plain-object resolver
entry receives `entry['_metadatas'] = { api, plugin }`; any other entry is left
as is. -/
def annotateEntry (m : Metadatas) : JsVal → JsVal
  | .obj rfields => .obj (setField rfields "_metadatas" (metaVal m))
  | v => v

/-- The outer loop body of `attachMetadataToResolvers`: a plain-object type
value has each of its entries annotated; any other value is left as is. -/
def annotateTypeVal (m : Metadatas) : JsVal → JsVal
  | .obj entries => .obj (entries.map fun p => (p.1, annotateEntry m p.2))
  | v => v

/-- `attachMetadataToResolvers(schema, { api, plugin })`: an empty (or missing,
or non-object) resolver map leaves the schema unchanged, otherwise every
plain-object resolver entry is annotated. -/
def attachMetadataToResolvers (schema : SchemaFragment) (m : Metadatas) :
    SchemaFragment :=
  match schema.resolver with
  | .obj fields =>
    if fields.isEmpty then schema
    else { schema with
      resolver := .obj (fields.map fun p => (p.1, annotateTypeVal m p.2)) }
  | _ => schema

/-- A schema fragment whose only resolver entry `Query.x` is a bare function. -/
def fnResolverSchema : SchemaFragment :=
  { resolver := .obj [("Query", .obj [("x", .fn 0)])] }

/-- A schema fragment whose only resolver entry `Query.x` is a plain object
`\x7b resolver: fn 7 \x7d`. -/
def objResolverSchema : SchemaFragment :=
  { resolver := .obj [("Query", .obj [("x", .obj [("resolver", .fn 7)])])] }

/-- C1. For every scalar attribute, `convertType` appends the non-null marker
`!` to the resolved scalar name iff `required` holds and not
(the root type is `mutation` and (the action is `update` or a default value is
present)); in particular a required integer attribute renders as `Int!` in query
context and as `Int` in mutation/update context. -/
theorem convertType_scalar_nonnull_marker (env : Env) (a : Attribute)
    (modelName attributeName rootType action : String)
    (h : isScalarAttribute a = true) :
    convertType env a modelName attributeName rootType action =
      scalarTypeName a modelName attributeName ++
        (if a.required = true ∧
            ¬(rootType = "mutation" ∧ (action = "update" ∨ a.hasDefault = true)) then
          "!" else "") ∧
    convertType env { type := some "integer", required := true }
        modelName attributeName "query" "" = "Int!" ∧
    convertType env { type := some "integer", required := true }
        modelName attributeName "mutation" "update" = "Int" := by
  refine ⟨?_, rfl, rfl⟩
  by_cases hr : a.required = true <;>
    by_cases hm : rootType = "mutation" <;>
      by_cases hu : action = "update" <;>
        by_cases hd : a.hasDefault = true <;>
          simp_all [convertType, bne_iff_ne]

/-- Witness for `convertType_scalar_nonnull_marker` at a concrete scalar attribute. -/
theorem convertType_scalar_nonnull_marker_witness :
    isScalarAttribute { type := some "integer", required := true } = true ∧
    convertType defaultEnv { type := some "integer", required := true }
        "m" "a" "query" "" =
      scalarTypeName { type := some "integer", required := true } "m" "a" ++
        (if ({ type := some "integer", required := true } : Attribute).required = true ∧
            ¬(("query" : String) = "mutation" ∧
              (("" : String) = "update" ∨
                ({ type := some "integer", required := true } : Attribute).hasDefault = true)) then
          "!" else "") :=
  ⟨by decide,
    (convertType_scalar_nonnull_marker defaultEnv
      { type := some "integer", required := true } "m" "a" "query" "" (by decide)).1⟩

/-- C2 counterexample. The claim states that `{type:"integer", required:true,
default:0}` renders as `Int` in query context; the code appends the marker
whenever `rootType !== 'mutation'`, so it renders as `Int!`. -/
theorem convertType_default_query_counterexample :
    convertType defaultEnv { type := some "integer", required := true, hasDefault := true }
        "" "" "query" "" = "Int!" ∧
    convertType defaultEnv { type := some "integer", required := true, hasDefault := true }
        "" "" "query" "" ≠ "Int" := by
  constructor
  · rfl
  · decide

/-- C2 amended. For `{type:"integer", required:true, default:0}`, `convertType`
in query context returns `Int!`; the presence of a default value relaxes
required-ness only in mutation context, where it yields `Int` for every action. -/
theorem convertType_default_relaxes_only_in_mutation (env : Env)
    (modelName attributeName action : String) :
    convertType env { type := some "integer", required := true, hasDefault := true }
        modelName attributeName "query" "" = "Int!" ∧
    convertType env { type := some "integer", required := true, hasDefault := true }
        modelName attributeName "mutation" action = "Int" := by
  constructor
  · rfl
  · have hbase : scalarTypeName
        { type := some "integer", required := true, hasDefault := true }
        modelName attributeName = "Int" := rfl
    simp [convertType, isScalarAttribute, hbase]

/-- C3. For every component attribute, `convertType` in mutation context yields
`edit<UpperFirst(Singular(globalId))>Input` for the update action, and otherwise
`<UpperFirst(Singular(globalId))>Input` suffixed with `!` iff `required`; the
result is wrapped in list brackets iff `repeatable`; in query context the type
name is the component's raw `globalId` and `required` has no effect. -/
theorem convertType_component_shape (env : Env) (a : Attribute)
    (modelName attributeName action : String)
    (h : a.type = some "component") :
    (action = "update" →
      convertType env a modelName attributeName "mutation" action =
        (if a.repeatable = true then
          "[" ++ ("edit" ++ upperFirst (env.toSingular (env.components a.component)) ++ "Input")
            ++ "]"
        else
          "edit" ++ upperFirst (env.toSingular (env.components a.component)) ++ "Input")) ∧
    (action ≠ "update" →
      convertType env a modelName attributeName "mutation" action =
        (if a.repeatable = true then
          "[" ++ (upperFirst (env.toSingular (env.components a.component)) ++ "Input"
            ++ (if a.required = true then "!" else "")) ++ "]"
        else
          upperFirst (env.toSingular (env.components a.component)) ++ "Input"
            ++ (if a.required = true then "!" else ""))) ∧
    (convertType env a modelName attributeName "query" action =
      (if a.repeatable = true then
        "[" ++ env.components a.component ++ "]"
      else
        env.components a.component)) := by
  have hs : isScalarAttribute a = false := by
    simp [isScalarAttribute, h]
  refine ⟨fun hu => ?_, fun hu => ?_, ?_⟩ <;>
    simp_all [convertType, bne_iff_ne]

/-- Witness for `convertType_component_shape`: the spec's example
`{type:"component", component:"shared.media", repeatable:true, required:true}`
in mutation/create context renders as `[SharedMediaInput!]`, with a registry
resolving `shared.media` to the global id `SharedMedia`. -/
theorem convertType_component_shape_witness :
    ({ type := some "component", component := "shared.media", repeatable := true,
        required := true } : Attribute).type = some "component" ∧
    ("" : String) ≠ "update" ∧
    convertType { defaultEnv with components := fun _ => "SharedMedia" }
      { type := some "component", component := "shared.media", repeatable := true,
        required := true } "" "" "mutation" "" = "[SharedMediaInput!]" := by
  refine ⟨rfl, by decide, ?_⟩
  have := (convertType_component_shape
    { defaultEnv with components := fun _ => "SharedMedia" }
    { type := some "component", component := "shared.media", repeatable := true,
      required := true } "" "" "" rfl).2.1 (by decide)
  simpa using this

/-- C8. An attribute whose truthy `type` is none of the recognized kinds falls
back to the `String` scalar (with the non-null marker applied by the usual
required rule) instead of raising an exception: the scalar branch's `switch`
defaults to `String` for every unrecognized type tag. -/
theorem convertType_unrecognized_falls_back_to_string (env : Env) (a : Attribute)
    (modelName attributeName rootType action t : String)
    (h1 : a.type = some t)
    (h2 : t ∉ (["", "boolean", "integer", "biginteger", "float", "decimal", "json",
      "date", "time", "datetime", "timestamp", "enumeration", "component",
      "dynamiczone"] : List String)) :
    convertType env a modelName attributeName rootType action =
      "String" ++
        (if a.required = true ∧
            ¬(rootType = "mutation" ∧ (action = "update" ∨ a.hasDefault = true)) then
          "!" else "") := by
  simp only [List.mem_cons, List.mem_singleton, not_or] at h2
  obtain ⟨he, hb, hi, hbi, hf, hd, hj, hda, hti, hdt, hts, hen, hc, hdz⟩ := h2
  have hs : isScalarAttribute a = true := by
    simp [isScalarAttribute, h1, bne_iff_ne, he, hc, hdz]
  have hbase : scalarTypeName a modelName attributeName = "String" := by
    simp [scalarTypeName, h1, hb, hi, hbi, hf, hd, hj, hda, hti, hdt, hts, hen]
  by_cases hr : a.required = true <;>
    by_cases hm : rootType = "mutation" <;>
      by_cases hu : action = "update" <;>
        by_cases hdef : a.hasDefault = true <;>
          simp_all [convertType, bne_iff_ne]

/-- Witness for `convertType_unrecognized_falls_back_to_string` at the
unrecognized type tag `richtext`. -/
theorem convertType_unrecognized_falls_back_to_string_witness :
    ({ type := some "richtext", required := true } : Attribute).type
        = some "richtext" ∧
    ("richtext" : String) ∉ (["", "boolean", "integer", "biginteger", "float",
      "decimal", "json", "date", "time", "datetime", "timestamp", "enumeration",
      "component", "dynamiczone"] : List String) ∧
    convertType defaultEnv { type := some "richtext", required := true }
      "" "" "query" "" = "String" ++
        (if ({ type := some "richtext", required := true } : Attribute).required = true ∧
            ¬(("query" : String) = "mutation" ∧
              (("" : String) = "update" ∨
                ({ type := some "richtext", required := true } : Attribute).hasDefault
                  = true)) then
          "!" else "") := by
  refine ⟨rfl, by decide, ?_⟩
  exact convertType_unrecognized_falls_back_to_string defaultEnv
    { type := some "richtext", required := true } "" "" "query" "" "richtext"
    rfl (by decide)

/-- Literal-fusion helper: re-associate so adjacent string literals merge. -/
theorem append_type_after_brace (s : String) :
    " \x7d\n          " ++ ("type " ++ s) = " \x7d\n          type " ++ s := by
  rw [← String.append_assoc]; simp

/-- Literal-fusion helper: re-associate so adjacent string literals merge. -/
theorem append_type_after_indent (s : String) :
    "\n          " ++ ("type " ++ s) = "\n          type " ++ s := by
  rw [← String.append_assoc]; simp

/-- Literal-fusion helper: re-associate so adjacent string literals merge. -/
theorem append_type_after_where (s : String) :
    "Input  \x7b where: InputID \x7d\n          " ++ ("type " ++ s) =
      "Input  \x7b where: InputID \x7d\n          type " ++ s := by
  rw [← String.append_assoc]; simp

/-- C4. `generateInputPayloadArguments` is a state machine on
`(action, model.kind)`: `create` emits `<mutationName>Input \x7b data: <InputName> \x7d`
plus the payload for every kind; `update` emits `\x7b data: edit<InputName> \x7d` for a
single type and `\x7b where: InputID, data: edit<InputName> \x7d` otherwise; `delete`
emits only the payload for a single type and `\x7b where: InputID \x7d` plus the payload
otherwise; the payload is always
`type <mutationName>Payload \x7b <singularName>: <globalId> \x7d`, and `addInput`
emits the fixed `InputID` shape `\x7b id: ID! \x7d`. -/
theorem generateInputPayloadArguments_state_machine (env : Env) (model : Model)
    (name mutationName : String) :
    (generateInputPayloadArguments env model name mutationName "create" =
      some ("\n          input " ++ mutationName ++ "Input \x7b data: "
        ++ env.toInputName name ++ " \x7d\n          "
        ++ payloadSDL env model name mutationName ++ "\n        ")) ∧
    (model.kind = "singleType" →
      generateInputPayloadArguments env model name mutationName "update" =
        some ("\n          input " ++ mutationName ++ "Input  \x7b data: edit"
          ++ env.toInputName name ++ " \x7d\n          "
          ++ payloadSDL env model name mutationName ++ "\n        ")) ∧
    (model.kind ≠ "singleType" →
      generateInputPayloadArguments env model name mutationName "update" =
        some ("\n          input " ++ mutationName ++ "Input  \x7b where: InputID, data: edit"
          ++ env.toInputName name ++ " \x7d\n          "
          ++ payloadSDL env model name mutationName ++ "\n        ")) ∧
    (model.kind = "singleType" →
      generateInputPayloadArguments env model name mutationName "delete" =
        some ("\n          " ++ payloadSDL env model name mutationName ++ "\n        ")) ∧
    (model.kind ≠ "singleType" →
      generateInputPayloadArguments env model name mutationName "delete" =
        some ("\n          input " ++ mutationName
          ++ "Input  \x7b where: InputID \x7d\n          "
          ++ payloadSDL env model name mutationName ++ "\n        ")) ∧
    addInput = "\n      input InputID \x7b id: ID!\x7d\n    " := by
  refine ⟨?_, fun hk => ?_, fun hk => ?_, fun hk => ?_, fun hk => ?_, rfl⟩ <;>
    simp_all [generateInputPayloadArguments, payloadSDL, bne_iff_ne,
      String.append_assoc, append_type_after_brace, append_type_after_indent,
      append_type_after_where]

/-- Witness for `generateInputPayloadArguments_state_machine` on a single-type
model and on a collection-type model. -/
theorem generateInputPayloadArguments_state_machine_witness :
    (({ globalId := "Homepage", kind := "singleType" } : Model).kind = "singleType" ∧
      generateInputPayloadArguments defaultEnv
          { globalId := "Homepage", kind := "singleType" } "homepage" "deleteHomepage"
          "delete" =
        some ("\n          "
          ++ payloadSDL defaultEnv { globalId := "Homepage", kind := "singleType" }
              "homepage" "deleteHomepage" ++ "\n        ")) ∧
    (({ globalId := "Post", kind := "collectionType" } : Model).kind ≠ "singleType" ∧
      generateInputPayloadArguments defaultEnv
          { globalId := "Post", kind := "collectionType" } "post" "deletePost"
          "delete" =
        some ("\n          input " ++ "deletePost"
          ++ "Input  \x7b where: InputID \x7d\n          "
          ++ payloadSDL defaultEnv { globalId := "Post", kind := "collectionType" }
              "post" "deletePost" ++ "\n        ")) :=
  ⟨⟨rfl, (generateInputPayloadArguments_state_machine defaultEnv
      { globalId := "Homepage", kind := "singleType" } "homepage"
      "deleteHomepage").2.2.2.1 rfl⟩,
    ⟨by decide, (generateInputPayloadArguments_state_machine defaultEnv
      { globalId := "Post", kind := "collectionType" } "post"
      "deletePost").2.2.2.2.1 (by decide)⟩⟩

/-- C7. A model with no attributes, or whose every attribute is disabled by the
per-field visibility predicate, yields exactly a create input with the single
placeholder field `_: String`, and an edit input holding `id: ID` when
`allowIds` is true and the placeholder `_: String` when it is false — never a
zero-field type. -/
theorem generateInputModel_degenerate (env : Env) (model : Model) (name : String)
    (allowIds : Bool)
    (h : model.attributes.isEmpty = true ∨
      (model.attributes.all fun p => !isTypeAttributeEnabled env model p.1) = true) :
    generateInputModel env model name allowIds =
      "\n      input " ++ (upperFirst (env.toSingular name) ++ "Input")
        ++ " \x7b\n        _: String\n      \x7d\n\n      input edit"
        ++ (upperFirst (env.toSingular name) ++ "Input") ++ " \x7b\n        "
        ++ (if allowIds then "id: ID" else "_: String")
        ++ "\n      \x7d\n     " := by
  rcases h with h | h <;> simp [generateInputModel, h]

/-- Witness for `generateInputModel_degenerate` on an attribute-less model. -/
theorem generateInputModel_degenerate_witness :
    (({ globalId := "Empty" } : Model).attributes.isEmpty = true ∨
      (({ globalId := "Empty" } : Model).attributes.all
        fun p => !isTypeAttributeEnabled defaultEnv { globalId := "Empty" } p.1) = true) ∧
    generateInputModel defaultEnv { globalId := "Empty" } "empty" false =
      "\n      input " ++ (upperFirst (defaultEnv.toSingular "empty") ++ "Input")
        ++ " \x7b\n        _: String\n      \x7d\n\n      input edit"
        ++ (upperFirst (defaultEnv.toSingular "empty") ++ "Input") ++ " \x7b\n        "
        ++ (if false then "id: ID" else "_: String")
        ++ "\n      \x7d\n     " :=
  ⟨Or.inl rfl,
    generateInputModel_degenerate defaultEnv { globalId := "Empty" } "empty" false
      (Or.inl rfl)⟩

/-- C10. For a model with at least one enabled attribute, `allowIds = true`
places `id: ID` as the first field of the edit input, before the converted
attribute lines, while `allowIds = false` leaves that slot empty; the create
input receives no `id` field in either case. -/
theorem generateInputModel_allowIds_edit_id (env : Env) (model : Model)
    (name : String)
    (h : ∃ p ∈ model.attributes, isTypeAttributeEnabled env model p.1 = true) :
    generateInputModel env model name true =
      "\n      input " ++ (upperFirst (env.toSingular name) ++ "Input")
        ++ " \x7b\n\n        "
        ++ String.intercalate "\n" (inputFieldLines env model "")
        ++ "\n      \x7d\n\n      input edit"
        ++ (upperFirst (env.toSingular name) ++ "Input") ++ " \x7b\n        "
        ++ "id: ID"
        ++ "\n        " ++ String.intercalate "\n" (inputFieldLines env model "update")
        ++ "\n      \x7d\n    " ∧
    generateInputModel env model name false =
      "\n      input " ++ (upperFirst (env.toSingular name) ++ "Input")
        ++ " \x7b\n\n        "
        ++ String.intercalate "\n" (inputFieldLines env model "")
        ++ "\n      \x7d\n\n      input edit"
        ++ (upperFirst (env.toSingular name) ++ "Input") ++ " \x7b\n        "
        ++ ""
        ++ "\n        " ++ String.intercalate "\n" (inputFieldLines env model "update")
        ++ "\n      \x7d\n    " := by
  obtain ⟨p, hp, he⟩ := h
  have h1 : model.attributes.isEmpty = false := by
    rcases hq : model.attributes with _ | ⟨q, qs⟩
    · rw [hq] at hp; cases hp
    · rfl
  have h2 : (model.attributes.all fun p => !isTypeAttributeEnabled env model p.1)
      = false := by
    rw [Bool.eq_false_iff]
    intro hall
    rw [List.all_eq_true] at hall
    have := hall p hp
    rw [he] at this
    cases this
  constructor <;> simp [generateInputModel, h1, h2]

/-- Witness for `generateInputModel_allowIds_edit_id` on a one-attribute model. -/
theorem generateInputModel_allowIds_edit_id_witness :
    (∃ p ∈ postModel.attributes,
      isTypeAttributeEnabled defaultEnv postModel p.1 = true) ∧
    generateInputModel defaultEnv postModel "post" true =
      "\n      input PostInput \x7b\n\n        title: String\n      \x7d\n\n      "
        ++ "input editPostInput \x7b\n        id: ID\n        title: String\n      \x7d\n    " := by
  refine ⟨⟨("title", { type := some "string" }), by simp [postModel], rfl⟩, ?_⟩
  have := (generateInputModel_allowIds_edit_id defaultEnv postModel "post"
    ⟨("title", { type := some "string" }), by simp [postModel], rfl⟩).1
  rw [this]
  rfl

/-- Folding `mergeStep` over a nonempty fragment list concatenates each text
field with single separating spaces onto the accumulator's text. -/
theorem foldl_mergeStep_texts :
    ∀ (fs : List SchemaFragment) (acc : SchemaFragment), fs ≠ [] →
      (List.foldl mergeStep acc fs).definition =
        some (orEmpty acc.definition ++ " " ++
          spaceJoin (fs.map fun f => orEmpty f.definition)) ∧
      (List.foldl mergeStep acc fs).query =
        some (orEmpty acc.query ++ " " ++
          spaceJoin (fs.map fun f => orEmpty f.query)) ∧
      (List.foldl mergeStep acc fs).mutation =
        some (orEmpty acc.mutation ++ " " ++
          spaceJoin (fs.map fun f => orEmpty f.mutation))
  | [], _, h => absurd rfl h
  | [f], acc, _ => by
    simp [mergeStep, spaceJoin]
  | f :: g :: rest, acc, _ => by
    have ih := foldl_mergeStep_texts (g :: rest) (mergeStep acc f) (by simp)
    simp only [List.foldl_cons] at ih ⊢
    refine ⟨?_, ?_, ?_⟩
    · rw [ih.1]; simp [mergeStep, orEmpty, spaceJoin, String.append_assoc]
    · rw [ih.2.1]; simp [mergeStep, orEmpty, spaceJoin, String.append_assoc]
    · rw [ih.2.2]; simp [mergeStep, orEmpty, spaceJoin, String.append_assoc]

/-- C5. `mergeSchemas` concatenates the `definition`, `query` and `mutation`
text fields of the fragments with one separating space, in fragment order (the
reduce starts from the empty accumulator, so a single leading space precedes
the joined texts); and when two fragments both define a resolver entry at the
same path, the later fragment's value wins: merging two fragments each defining
`resolver.Query.x` leaves the second fragment's function in the merged map. -/
theorem mergeSchemas_space_join_and_last_writer_wins :
    (∀ fs : List SchemaFragment, fs ≠ [] →
      (mergeSchemas fs).definition =
        some (" " ++ spaceJoin (fs.map fun f => orEmpty f.definition)) ∧
      (mergeSchemas fs).query =
        some (" " ++ spaceJoin (fs.map fun f => orEmpty f.query)) ∧
      (mergeSchemas fs).mutation =
        some (" " ++ spaceJoin (fs.map fun f => orEmpty f.mutation))) ∧
    (∀ fnA fnB : Nat,
      ((mergeSchemas [queryXFragment fnA, queryXFragment fnB]).resolver.get
          "Query").get "x" = .fn fnB) := by
  constructor
  · intro fs h
    have := foldl_mergeStep_texts fs {} h
    simpa [mergeSchemas, orEmpty] using this
  · intro fnA fnB
    simp [mergeSchemas, mergeStep, queryXFragment, lodashMerge,
      lodashMergeFields, lodashAssign, JsVal.get, getField]

/-- Witness for `mergeSchemas_space_join_and_last_writer_wins` on a concrete
two-fragment list. -/
theorem mergeSchemas_space_join_and_last_writer_wins_witness :
    (([{ definition := some "type A \x7b x: Int \x7d" },
        { definition := some "type B \x7b y: Int \x7d" }] :
      List SchemaFragment) ≠ [] ∧
      (mergeSchemas [{ definition := some "type A \x7b x: Int \x7d" },
          { definition := some "type B \x7b y: Int \x7d" }]).definition =
        some (" " ++ spaceJoin
          (([{ definition := some "type A \x7b x: Int \x7d" },
              { definition := some "type B \x7b y: Int \x7d" }] :
            List SchemaFragment).map fun f => orEmpty f.definition))) ∧
    ((mergeSchemas [queryXFragment 0, queryXFragment 1]).resolver.get
        "Query").get "x" = .fn 1 := by
  refine ⟨⟨by simp, ?_⟩, ?_⟩
  · exact (mergeSchemas_space_join_and_last_writer_wins.1
      [{ definition := some "type A \x7b x: Int \x7d" },
        { definition := some "type B \x7b y: Int \x7d" }] (by simp)).1
  · exact mergeSchemas_space_join_and_last_writer_wins.2 0 1

/-- C6 counterexample. The claim says the emitted member list is duplicate-free;
the code performs no deduplication, so a merged text defining `type A` twice
(whose parse yields two object-type nodes named `A`) emits
`union Morph = A | A`. -/
theorem addPolymorphicUnionType_duplicates_counterexample :
    unionTypeNames (dupParse "type A \x7b x: Int \x7d type A \x7b y: Int \x7d")
        = ["A", "A"] ∧
    ¬ (unionTypeNames
        (dupParse "type A \x7b x: Int \x7d type A \x7b y: Int \x7d")).Nodup ∧
    (addPolymorphicUnionType dupParse
        "type A \x7b x: Int \x7d type A \x7b y: Int \x7d").definition
      = "union Morph = A | A" := by
  refine ⟨rfl, by decide, rfl⟩

/-- C6 amended. The union's member list is exactly the names of the parsed
object-type definitions excluding the root `Query` type, in order of appearance
and including any duplicate occurrences; the builder is a pure function of the
parsed text; and with zero candidates it returns an empty definition and empty
resolvers rather than an error. -/
theorem addPolymorphicUnionType_members (parse : String → List DefinitionNode)
    (d : String) :
    (unionTypeNames (parse d) ≠ [] →
      (addPolymorphicUnionType parse d).definition =
        "union Morph = " ++ String.intercalate " | " (unionTypeNames (parse d)) ∧
      (addPolymorphicUnionType parse d).resolvers = some morphResolveType) ∧
    (unionTypeNames (parse d) = [] →
      (addPolymorphicUnionType parse d).definition = "" ∧
      (addPolymorphicUnionType parse d).resolvers = none) ∧
    addPolymorphicUnionType parse d = addPolymorphicUnionType parse d := by
  refine ⟨fun h => ?_, fun h => ?_, rfl⟩ <;>
    simp [addPolymorphicUnionType, h, List.length_pos]

/-- Witness for `addPolymorphicUnionType_members` at a one-candidate parse and
at a zero-candidate parse. -/
theorem addPolymorphicUnionType_members_witness :
    (unionTypeNames (singleParse "type A \x7b x: Int \x7d type Query \x7b a: A \x7d")
        ≠ [] ∧
      (addPolymorphicUnionType singleParse
          "type A \x7b x: Int \x7d type Query \x7b a: A \x7d").definition =
        "union Morph = " ++ String.intercalate " | "
          (unionTypeNames
            (singleParse "type A \x7b x: Int \x7d type Query \x7b a: A \x7d"))) ∧
    (unionTypeNames (emptyParse "input B \x7b x: Int \x7d") = [] ∧
      (addPolymorphicUnionType emptyParse "input B \x7b x: Int \x7d").definition
        = "" ∧
      (addPolymorphicUnionType emptyParse "input B \x7b x: Int \x7d").resolvers
        = none) := by
  refine ⟨⟨by decide, ?_⟩, rfl, ?_, ?_⟩
  · exact ((addPolymorphicUnionType_members singleParse
      "type A \x7b x: Int \x7d type Query \x7b a: A \x7d").1 (by decide)).1
  · exact ((addPolymorphicUnionType_members emptyParse
      "input B \x7b x: Int \x7d").2.1 rfl).1
  · exact ((addPolymorphicUnionType_members emptyParse
      "input B \x7b x: Int \x7d").2.1 rfl).2

/-- Looking a key up after mapping a value transformer over a field list applies
the transformer to the found value (assuming the key is present, i.e. the
lookup is not `undefined`). -/
theorem getField_map_val (g : JsVal → JsVal) :
    ∀ (fs : List (String × JsVal)) (k : String) (v : JsVal),
      getField fs k = v → v ≠ .undefined →
      getField (fs.map fun p => (p.1, g p.2)) k = g v
  | [], _, _, hv, hne => absurd hv.symm hne
  | (k', w) :: rest, k, v, hv, hne => by
    by_cases hk : (k' == k) = true
    · simp only [getField, hk, if_true] at hv
      simp [getField, hk, hv]
    · simp only [getField, hk] at hv
      simp only [List.map_cons, getField, hk, if_false]
      simpa [hk] using getField_map_val g rest k v (by simpa [hk] using hv) hne

/-- When the key occurs in the field list, replacing each of its entries by the
new value makes its lookup return the new value. -/
theorem getField_replaceAll (k : String) (v : JsVal) :
    ∀ fs : List (String × JsVal), (fs.any fun p => p.1 == k) = true →
      getField (fs.map fun p => if p.1 == k then (k, v) else p) k = v
  | [], h => by simp at h
  | (k1, w) :: rest, h => by
    rw [List.map_cons]
    by_cases hk : ((k1, w).1 == k) = true
    · rw [if_pos hk]
      simp [getField]
    · rw [if_neg hk]
      have hr : (rest.any fun p => p.1 == k) = true := by
        simpa [List.any_cons, hk] using h
      have hk' : (k1 == k) = false := by simpa using hk
      simpa [getField, hk'] using getField_replaceAll k v rest hr

/-- When the key does not occur in the field list, appending its entry makes
its lookup return the appended value. -/
theorem getField_appendNew (k : String) (v : JsVal) :
    ∀ fs : List (String × JsVal), (fs.any fun p => p.1 == k) = false →
      getField (fs ++ [(k, v)]) k = v
  | [], _ => by simp [getField]
  | (k1, w) :: rest, h => by
    rw [List.any_cons] at h
    have hk := (Bool.or_eq_false_iff.mp h).1
    have hr := (Bool.or_eq_false_iff.mp h).2
    have hk' : (k1 == k) = false := by simpa using hk
    simpa [getField, hk'] using getField_appendNew k v rest hr

/-- Looking up the key just written by `setField` returns the written value. -/
theorem getField_setField_self (fs : List (String × JsVal)) (k : String)
    (v : JsVal) : getField (setField fs k v) k = v := by
  unfold setField
  by_cases h : (fs.any fun p => p.1 == k) = true
  · simpa [h] using getField_replaceAll k v fs h
  · have h' : (fs.any fun p => p.1 == k) = false := Bool.eq_false_iff.mpr h
    simpa [h'] using getField_appendNew k v fs h'

/-- Replacing every entry of one key leaves any other key's lookup unchanged. -/
theorem getField_replaceAll_other (k : String) (v : JsVal) (k' : String)
    (hne : k' ≠ k) :
    ∀ fs : List (String × JsVal),
      getField (fs.map fun p => if p.1 == k then (k, v) else p) k' = getField fs k'
  | [] => rfl
  | (k1, w) :: rest => by
    have hkk : (k == k') = false := by
      rw [beq_eq_false_iff_ne]
      exact fun he => hne he.symm
    rw [List.map_cons]
    by_cases hk : ((k1, w).1 == k) = true
    · have hpk : k1 = k := by simpa using hk
      have hp : (k1 == k') = false := by
        rw [hpk]
        exact hkk
      rw [if_pos hk]
      simpa [getField, hkk, hp] using getField_replaceAll_other k v k' hne rest
    · rw [if_neg hk]
      by_cases hp : (k1 == k') = true
      · simp [getField, hp]
      · have hp' : (k1 == k') = false := by simpa using hp
        simpa [getField, hp'] using getField_replaceAll_other k v k' hne rest

/-- Appending an entry for one key leaves any other key's lookup unchanged. -/
theorem getField_append_other (k : String) (v : JsVal) (k' : String)
    (hne : k' ≠ k) :
    ∀ fs : List (String × JsVal),
      getField (fs ++ [(k, v)]) k' = getField fs k'
  | [] => by
    have hkk : (k == k') = false := by
      rw [beq_eq_false_iff_ne]
      exact fun he => hne he.symm
    simp [getField, hkk]
  | (k1, w) :: rest => by
    by_cases hp : (k1 == k') = true
    · simp [getField, hp]
    · have hp' : (k1 == k') = false := by simpa using hp
      simpa [getField, hp'] using getField_append_other k v k' hne rest

/-- Writing one key with `setField` leaves every other key's lookup unchanged. -/
theorem getField_setField_other (fs : List (String × JsVal)) (k : String)
    (v : JsVal) (k' : String) (h : k' ≠ k) :
    getField (setField fs k v) k' = getField fs k' := by
  unfold setField
  by_cases hany : (fs.any fun p => p.1 == k) = true
  · simpa [hany] using getField_replaceAll_other k v k' h fs
  · have h' : (fs.any fun p => p.1 == k) = false := Bool.eq_false_iff.mpr hany
    simpa [h'] using getField_append_other k v k' h fs

/-- C9 counterexample. The claim says each resolver entry is annotated with
`_metadatas`; the code skips entries that are not plain objects, so a bare
function entry `Query.x` passes through unannotated. -/
theorem attachMetadataToResolvers_counterexample :
    ((attachMetadataToResolvers fnResolverSchema
        { api := some "my-api" }).resolver.get "Query").get "x" = .fn 0 ∧
    (((attachMetadataToResolvers fnResolverSchema
        { api := some "my-api" }).resolver.get "Query").get "x").get "_metadatas"
      = .undefined := ⟨rfl, rfl⟩

/-- C9 amended. `attachMetadataToResolvers` annotates each plain-object
resolver entry with a `_metadatas` field holding the `{api, plugin}` source
identity, leaving the entry's other fields intact; entries that are not plain
objects (e.g. bare functions) are left untouched. -/
theorem attachMetadataToResolvers_annotates (schema : SchemaFragment)
    (m : Metadatas) (ty rn : String) (tfields rentries : List (String × JsVal))
    (h1 : schema.resolver = .obj tfields)
    (h2 : getField tfields ty = .obj rentries) :
    (∀ rfields : List (String × JsVal), getField rentries rn = .obj rfields →
      (((attachMetadataToResolvers schema m).resolver.get ty).get rn).get
          "_metadatas" = metaVal m ∧
      ∀ k, k ≠ "_metadatas" →
        (((attachMetadataToResolvers schema m).resolver.get ty).get rn).get k
          = getField rfields k) ∧
    (∀ i, getField rentries rn = .fn i →
      ((attachMetadataToResolvers schema m).resolver.get ty).get rn = .fn i) := by
  have hie : tfields.isEmpty = false := by
    rcases hf : tfields with _ | ⟨a, b⟩
    · rw [hf] at h2
      simp [getField] at h2
    · rfl
  have hres : (attachMetadataToResolvers schema m).resolver =
      .obj (tfields.map fun p => (p.1, annotateTypeVal m p.2)) := by
    unfold attachMetadataToResolvers
    rw [h1]
    simp [hie]
  have hty : (attachMetadataToResolvers schema m).resolver.get ty =
      .obj (rentries.map fun p => (p.1, annotateEntry m p.2)) := by
    rw [hres]
    show getField (tfields.map fun p => (p.1, annotateTypeVal m p.2)) ty = _
    rw [getField_map_val (annotateTypeVal m) tfields ty (.obj rentries) h2
      (by simp)]
    rfl
  constructor
  · intro rfields h3
    have hrn : ((attachMetadataToResolvers schema m).resolver.get ty).get rn =
        .obj (setField rfields "_metadatas" (metaVal m)) := by
      rw [hty]
      show getField (rentries.map fun p => (p.1, annotateEntry m p.2)) rn = _
      rw [getField_map_val (annotateEntry m) rentries rn (.obj rfields) h3
        (by simp)]
      rfl
    constructor
    · rw [hrn]
      exact getField_setField_self rfields "_metadatas" (metaVal m)
    · intro k hk
      rw [hrn]
      exact getField_setField_other rfields "_metadatas" (metaVal m) k hk
  · intro i h3
    rw [hty]
    show getField (rentries.map fun p => (p.1, annotateEntry m p.2)) rn = _
    rw [getField_map_val (annotateEntry m) rentries rn (.fn i) h3 (by simp)]
    rfl

/-- Witness for `attachMetadataToResolvers_annotates` on a concrete
plain-object resolver entry. -/
theorem attachMetadataToResolvers_annotates_witness :
    objResolverSchema.resolver =
      .obj [("Query", .obj [("x", .obj [("resolver", .fn 7)])])] ∧
    getField [("Query", .obj [("x", .obj [("resolver", .fn 7)])])] "Query" =
      .obj [("x", .obj [("resolver", .fn 7)])] ∧
    (((attachMetadataToResolvers objResolverSchema
        { api := some "users" }).resolver.get "Query").get "x").get "_metadatas"
      = metaVal { api := some "users" } ∧
    (((attachMetadataToResolvers objResolverSchema
        { api := some "users" }).resolver.get "Query").get "x").get "resolver"
      = .fn 7 := by
  have h := (attachMetadataToResolvers_annotates objResolverSchema
    { api := some "users" } "Query" "x"
    [("Query", .obj [("x", .obj [("resolver", .fn 7)])])]
    [("x", .obj [("resolver", .fn 7)])] rfl rfl).1
    [("resolver", .fn 7)] rfl
  refine ⟨rfl, rfl, h.1, ?_⟩
  rw [h.2 "resolver" (by decide)]
  rfl
